import Mathlib

/-!
Verification development for the duplicity AmazonDrive backend
(`amazondrivebackend.py`).  The adapter's protocol logic — path-to-node
resolution, paginated listing, and the put/get/query/list/delete file
operations with their error semantics — is shallowly embedded below.
HTTP traffic is abstracted by environments that fix the provider's
responses; each operation returns its result, the successor adapter
state, and the ordered list of requests it issued.
-/

namespace AmazonDrive

/-- A remote node as it appears in the provider's JSON responses.
`name` is optional because the Python code reads it with `f.get('name')`,
which yields `None` when the field is absent. -/
structure RNode where
  name : Option String
  id : String
deriving Repr, DecidableEq

/-- Error raised by `resolve_backup_target` when two sibling folders share
one name (the `log.FatalError` at lines 182-185). -/
inductive RErr where
  | ambiguousFolders
deriving Repr, DecidableEq

/-- Environment for the path resolver: the provider's answers to the two
kinds of requests `resolve_backup_target` issues.  `query parent filter`
is the full (already de-paginated, see `read_all_pages`) result of
`GET nodes?filters=kind:FOLDER AND name:<filter> AND parents:<parent>`;
`mkdir parent name` is the `id` field of the node created by the POST in
`AmazonDriveBackend.mkdir` (lines 203-211). -/
structure ResolveEnv where
  query : String → String → List RNode
  mkdir : String → String → String

/-- The character class `[A-Za-z0-9_-]` of the filter regex at line 173. -/
def isFilterChar (c : Char) : Bool :=
  ('A' ≤ c && c ≤ 'Z') || ('a' ≤ c && c ≤ 'z') || ('0' ≤ c && c ≤ '9')
    || c == '_' || c == '-'

/-- Greedy anchored star match: the characters `re.search('^[A-Za-z0-9_-]*',
component).group(0)` consumes, i.e. the maximal run of class characters at
the start of the input. -/
def reStarRun (p : Char → Bool) : List Char → List Char
  | [] => []
  | c :: cs => if p c then c :: reStarRun p cs else []

/-- Model of `re.search('^[A-Za-z0-9_-]*', component).group(0)` (line 173). -/
def searchFilter (component : String) : String :=
  String.mk (reStarRun isFilterChar component.toList)

/-- Lines 173-175: the name filter sent to the provider; a `*` wildcard is
appended when the regex match did not consume the whole component. -/
def mkFilter (component : String) : String :=
  let filter := searchFilter component
  if component ≠ filter then filter ++ "*" else filter

/-- One iteration of the loop in `resolve_backup_target` (lines 170-190):
query child folders of `parent_node_id` matching the filter, keep those
whose `name` equals the component exactly, then fail on ≥ 2 candidates,
descend on exactly 1, create (and descend into) a folder on 0. -/
def resolve_step (env : ResolveEnv) (parent_node_id component : String) :
    Except RErr String :=
  let found := env.query parent_node_id (mkFilter component)
  let candidates := found.filter (fun f => f.name == some component)
  match candidates with
  | _ :: _ :: _ => Except.error RErr.ambiguousFolders
  | [c] => Except.ok c.id
  | [] => Except.ok (env.mkdir parent_node_id component)

/-- The loop of `resolve_backup_target`, folding `resolve_step` over the
path components while threading the current parent node id. -/
def resolve_components (env : ResolveEnv) : String → List String → Except RErr String
  | parent, [] => Except.ok parent
  | parent, c :: rest =>
    match resolve_step env parent c with
    | Except.error e => Except.error e
    | Except.ok p => resolve_components env p rest

/-- Model of `AmazonDriveBackend.resolve_backup_target` (lines 163-193), starting
from the id of the provider's root folder node: walk the non-empty
slash-separated components (`[x for x in self.backup_target.split('/') if x]`)
and return the final node id, which `__init__` stores as
`backup_target_id`. -/
def resolve_backup_target (env : ResolveEnv) (root_id backup_target : String) :
    Except RErr String :=
  resolve_components env root_id ((backup_target.splitOn "/").filter (fun x => x != ""))

/-! Spec-side rendering of the resolver, written from the specification's
words for comparison with the source-side definitions above: the filter is
"the longest prefix of the segment consisting only of characters in
`[A-Za-z0-9_-]`" with "a wildcard appended when the segment contains any
other character"; candidates are results "whose name exactly equals the
segment"; "if two or more candidates remain it fails fatally, if exactly
one remains it descends into it, and if none remain it creates a new
folder"; the segments are "each non-empty slash-separated segment in
order". -/

/-- Modelled from the spec: the name filter of one segment. -/
def specFilter (segment : String) : String :=
  let pfx := String.mk (segment.toList.takeWhile isFilterChar)
  if segment.toList.any (fun c => !isFilterChar c) then pfx ++ "*" else pfx

/-- Modelled from the spec: processing of one segment. -/
def spec_resolve_step (env : ResolveEnv) (parent segment : String) :
    Except RErr String :=
  let results := env.query parent (specFilter segment)
  let candidates := results.filter (fun f => f.name == some segment)
  if 2 ≤ candidates.length then Except.error RErr.ambiguousFolders
  else if candidates.length = 1 then Except.ok ((candidates.headD ⟨none, ""⟩).id)
  else Except.ok (env.mkdir parent segment)

/-- Modelled from the spec: the whole resolution, a monadic fold of the
step over the non-empty segments. -/
def spec_resolve (env : ResolveEnv) (root_id path : String) : Except RErr String :=
  List.foldlM (fun p seg => spec_resolve_step env p seg) root_id
    ((path.splitOn "/").filter (fun s => decide (s ≠ "")))

/-! ## Pagination (`read_all_pages`, lines 236-261) -/

/-- One JSON response of the paginated nodes endpoint: the `data` array,
the optional `nextToken` field (`'nextToken' not in json_response` models
its absence), and the reported total `count`. -/
structure Page where
  data : List RNode
  nextToken : Option String
  count : Nat
deriving Repr

/-- The loop body of `read_all_pages`, fuelled to make the while-loop a
total function.  `pages` maps the `startToken` query parameter of a request
to the provider's response; `result` and `reqs` accumulate the nodes read
and the tokens requested so far.  Each iteration requests `next_token`,
extends the accumulator with the page's `data`, stops when the response has
no `nextToken` field or its `data` is empty (line 252), stops when the
accumulated size has reached the reported `count` (line 256), and otherwise
loops on the response's `nextToken`.  `none` means the fuel ran out before
the loop broke. -/
def read_all_pages_aux (pages : String → Page) :
    Nat → String → List RNode → List String → Option (List RNode × List String)
  | 0, _, _, _ => none
  | fuel + 1, next_token, result, reqs =>
    let resp := pages next_token
    let reqs' := reqs ++ [next_token]
    let result' := result ++ resp.data
    match resp.nextToken with
    | none => some (result', reqs')
    | some nt =>
      if resp.data.length = 0 then some (result', reqs')
      else if resp.count ≤ result'.length then some (result', reqs')
      else read_all_pages_aux pages fuel nt result' reqs'

/-- Model of `read_all_pages` (lines 236-261): empty accumulator, first request with
an empty `startToken`.  Returns the accumulated nodes together with the
tokens requested, in order. -/
def read_all_pages (pages : String → Page) (fuel : Nat) :
    Option (List RNode × List String) :=
  read_all_pages_aux pages fuel "" [] []

/-- The break condition of the loop for a page read when `accLen` nodes had
been accumulated before it: the response lacks `nextToken`, or its `data`
is empty, or the accumulator (now including this page's `data`) has reached
the reported `count`. -/
def stopsAt (p : Page) (accLen : Nat) : Bool :=
  p.nextToken.isNone || p.data.length = 0 || decide (p.count ≤ accLen + p.data.length)

/-- Predicate `chainOk pages ts accLen` says the requests with tokens `ts` form a run
of the loop that terminates on the last of them: every earlier page does
not satisfy the break condition and links to the next token via its
`nextToken` field, and the final page satisfies the break condition. -/
def chainOk (pages : String → Page) : List String → Nat → Bool
  | [], _ => false
  | [t], accLen => stopsAt (pages t) accLen
  | t :: t' :: rest, accLen =>
    let p := pages t
    !stopsAt p accLen && (p.nextToken == some t')
      && chainOk pages (t' :: rest) (accLen + p.data.length)

/-- Concatenation of the `data` arrays of the pages fetched at tokens `ts`. -/
def chainData (pages : String → Page) (ts : List String) : List RNode :=
  (ts.map (fun t => (pages t).data)).flatten

/-! ## Adapter state, environment and the file operations -/

/-- Association-list model of the Python dict `self.names_to_ids`. -/
abbrev Dict : Type := List (String × String)

/-- Dict read, `d.get(k)` / `d[k]`. -/
def dictLookup (k : String) : Dict → Option String
  | [] => none
  | (k', v) :: rest => if k' = k then some v else dictLookup k rest

/-- Membership test, `k in d`. -/
def dictMem (k : String) (d : Dict) : Bool :=
  (dictLookup k d).isSome

/-- Assignment `d[k] = v`: replaces the value of an existing key, appends a
new key. -/
def dictInsert (k v : String) : Dict → Dict
  | [] => [(k, v)]
  | (k', v') :: rest => if k' = k then (k, v) :: rest else (k', v') :: dictInsert k v rest

/-- Removal `del d[k]` of a present key. -/
def dictErase (k : String) : Dict → Dict
  | [] => []
  | (k', v') :: rest => if k' = k then rest else (k', v') :: dictErase k rest

/-- Dict comprehension `{f['name']: f['id'] for f in files}`: left-to-right insertion, later
entries win. -/
def dictOfPairs (l : List (String × String)) : Dict :=
  l.foldl (fun d p => dictInsert p.1 p.2 d) []

/-- The mutable fields of one `AmazonDriveBackend` instance that the file
operations touch: the Node Index `names_to_ids` and the resolved
`backup_target_id`. -/
structure BackendState where
  names_to_ids : Dict
  backup_target_id : String
deriving DecidableEq

/-- One request issued by a file operation, in the order the Python code
sends them: the quota GET of `_put`, the children listing of `_list`, the
trash-move PUT of `_delete`, the multipart upload POST of `_put`, the node
metadata GET of `_query`, the content GET of `_get`; `openDest` records
`_get` opening its local destination file for writing. -/
inductive Ev where
  | quota
  | listing
  | trash (id : String)
  | upload
  | nodeMeta (id : String)
  | openDest
  | download (id : String)
deriving Repr, DecidableEq, BEq

/-- The distinct raise sites of the file operations.  `httpError` stands
for `requests`' `raise_for_status` on a 4xx/5xx response; `keyError` for a
Python `KeyError` on a missing JSON field. -/
inductive BErr where
  | outOfSpace
  | notFoundDelete (name : String)
  | notFoundGet (name : String)
  | uploadConflict (name : String)
  | missingUploadId (name : String)
  | httpError (status : Nat)
  | keyError
deriving Repr, DecidableEq

/-- Modelled from the spec: the retryable-vs-fatal taxonomy of section 7.
The retry machinery lives in the external duplicity framework (not under
src/); the spec classifies the upload 409-conflict and the missing-upload-id
errors as retryable and the not-found operation errors as non-retryable. -/
def retryable : BErr → Bool
  | BErr.uploadConflict _ => true
  | BErr.missingUploadId _ => true
  | _ => false

/-- The provider's (and local filesystem's) fixed responses for one run of
a file operation: the status and `available` field of the quota GET, the
size of the local source file, the status and `id`/`name` fields of the
upload POST's response, the name/id pairs of the FILE children returned by
the paginated listing, and per-node-id the statuses of the trash PUT,
metadata GET and content GET, the metadata `contentProperties.size`, and
the download's content chunks. -/
structure Env where
  quotaStatus : Nat
  available : Int
  sourceSize : Int
  uploadStatus : Nat
  uploadId : Option String
  uploadName : Option String
  listChildren : List (String × String)
  trashStatus : String → Nat
  nodeMetaStatus : String → Nat
  nodeSize : String → Int
  downloadStatus : String → Nat
  chunks : String → List (List Nat)

/-- Result of one file operation: the value returned or error raised, the
adapter state after it (mutations before a raise persist), and the ordered
requests issued. -/
structure OpResult (α : Type) where
  result : Except BErr α
  state : BackendState
  events : List Ev

/-- Model of `AmazonDriveBackend._list` (lines 345-354): read all FILE children of
the backup target and replace `names_to_ids` wholesale; returns the keys.
The paginated read and its HTTP layer are abstracted into
`env.listChildren` (cf. `read_all_pages`). -/
def list_op (env : Env) (st : BackendState) : List String × BackendState × List Ev :=
  let d := dictOfPairs env.listChildren
  (d.map Prod.fst, { st with names_to_ids := d }, [Ev.listing])

/-- Model of `AmazonDriveBackend.get_file_id` (lines 195-201): on a Node Index miss
run `_list` first, then answer from the (possibly refreshed) index. -/
def get_file_id (env : Env) (st : BackendState) (remote_filename : String) :
    Option String × BackendState × List Ev :=
  if dictMem remote_filename st.names_to_ids then
    (dictLookup remote_filename st.names_to_ids, st, [])
  else
    let r := list_op env st
    (dictLookup remote_filename r.2.1.names_to_ids, r.2.1, r.2.2)

/-- Model of `AmazonDriveBackend._delete` (lines 356-366): resolve the id (listing
on a miss), raise not-found when absent, PUT the trash move,
`raise_for_status`, then remove the name from the Node Index. -/
def delete_op (env : Env) (st : BackendState) (remote_filename : String) :
    OpResult Unit :=
  let r := get_file_id env st remote_filename
  match r.1 with
  | none => ⟨Except.error (BErr.notFoundDelete remote_filename), r.2.1, r.2.2⟩
  | some file_id =>
    if 400 ≤ env.trashStatus file_id then
      ⟨Except.error (BErr.httpError (env.trashStatus file_id)), r.2.1,
        r.2.2 ++ [Ev.trash file_id]⟩
    else
      ⟨Except.ok (),
        { r.2.1 with names_to_ids := dictErase remote_filename r.2.1.names_to_ids },
        r.2.2 ++ [Ev.trash file_id]⟩

/-- Lines 278-283 of `_put`: when `remote_filename` is already a key of
the cached Node Index, delete the existing remote node first; otherwise do
nothing. -/
def proactive_delete (env : Env) (st : BackendState) (remote_filename : String) :
    OpResult Unit :=
  if dictMem remote_filename st.names_to_ids then delete_op env st remote_filename
  else ⟨Except.ok (), st, []⟩

/-- Lines 285-314 of `_put`, from the multipart upload POST on: on a 409
response delete the conflicting node and raise the retry message (lines
296-301; an error raised by that delete propagates instead); otherwise
`raise_for_status`, then raise when the response JSON has no `id` (lines
305-309), read its `name` (a missing `name` is a Python `KeyError`) and
store `name ↦ id` in the Node Index (line 314).  `ev` carries the events
of the earlier part of `_put`. -/
def put_upload (env : Env) (st1 : BackendState) (remote_filename : String)
    (ev : List Ev) : OpResult Unit :=
  let ev2 := ev ++ [Ev.upload]
  if env.uploadStatus = 409 then
    let r := delete_op env st1 remote_filename
    match r.result with
    | Except.error e => ⟨Except.error e, r.state, ev2 ++ r.events⟩
    | Except.ok _ =>
      ⟨Except.error (BErr.uploadConflict remote_filename), r.state, ev2 ++ r.events⟩
  else if 400 ≤ env.uploadStatus then
    ⟨Except.error (BErr.httpError env.uploadStatus), st1, ev2⟩
  else
    match env.uploadId with
    | none => ⟨Except.error (BErr.missingUploadId remote_filename), st1, ev2⟩
    | some new_id =>
      match env.uploadName with
      | none => ⟨Except.error BErr.keyError, st1, ev2⟩
      | some nm =>
        ⟨Except.ok (),
          { st1 with names_to_ids := dictInsert nm new_id st1.names_to_ids }, ev2⟩

/-- Model of `AmazonDriveBackend._put` (lines 263-314): quota GET with
`raise_for_status`, out-of-space check `source_size > available`, the
proactive delete of a cached name, then the upload tail `put_upload`. -/
def put_op (env : Env) (st : BackendState) (remote_filename : String) :
    OpResult Unit :=
  if 400 ≤ env.quotaStatus then
    ⟨Except.error (BErr.httpError env.quotaStatus), st, [Ev.quota]⟩
  else if env.available < env.sourceSize then
    ⟨Except.error BErr.outOfSpace, st, [Ev.quota]⟩
  else
    let r0 := proactive_delete env st remote_filename
    match r0.result with
    | Except.error e => ⟨Except.error e, r0.state, [Ev.quota] ++ r0.events⟩
    | Except.ok _ => put_upload env r0.state remote_filename ([Ev.quota] ++ r0.events)

/-- Model of `AmazonDriveBackend._query` (lines 334-343): resolve the id (listing
on a miss); absent means size `-1`; otherwise GET the node metadata,
`raise_for_status`, and return `contentProperties.size`. -/
def query_op (env : Env) (st : BackendState) (remote_filename : String) :
    OpResult Int :=
  let r := get_file_id env st remote_filename
  match r.1 with
  | none => ⟨Except.ok (-1), r.2.1, r.2.2⟩
  | some file_id =>
    if 400 ≤ env.nodeMetaStatus file_id then
      ⟨Except.error (BErr.httpError (env.nodeMetaStatus file_id)), r.2.1,
        r.2.2 ++ [Ev.nodeMeta file_id]⟩
    else
      ⟨Except.ok (env.nodeSize file_id), r.2.1, r.2.2 ++ [Ev.nodeMeta file_id]⟩

/-- Result of `_get`: beyond the usual fields, `dest` is the local
destination file, `none` while untouched and `some bytes` once
`local_path.open('wb')` has created or truncated it. -/
structure GetResult where
  result : Except BErr Unit
  state : BackendState
  events : List Ev
  dest : Option (List Nat)

/-- Model of `AmazonDriveBackend._get` (lines 316-332): the destination is opened
for writing (created/truncated) first; only then is the id resolved
(listing on a miss) and not-found raised; on success the content GET's
chunks are written in order, empty chunks skipped. -/
def get_op (env : Env) (st : BackendState) (remote_filename : String) : GetResult :=
  let dest0 : List Nat := []
  let r := get_file_id env st remote_filename
  match r.1 with
  | none =>
    ⟨Except.error (BErr.notFoundGet remote_filename), r.2.1,
      [Ev.openDest] ++ r.2.2, some dest0⟩
  | some file_id =>
    if 400 ≤ env.downloadStatus file_id then
      ⟨Except.error (BErr.httpError (env.downloadStatus file_id)), r.2.1,
        [Ev.openDest] ++ r.2.2 ++ [Ev.download file_id], some dest0⟩
    else
      ⟨Except.ok (), r.2.1, [Ev.openDest] ++ r.2.2 ++ [Ev.download file_id],
        some (((env.chunks file_id).filter (fun c => c ≠ [])).foldl
          (fun acc c => acc ++ c) dest0)⟩

/-- Model of `__init__` (lines 52-84): `names_to_ids` starts empty and
`backup_target_id` is set, once, to the result of
`resolve_backup_target`. -/
def mk_backend_state (renv : ResolveEnv) (root_id path : String) :
    Except RErr BackendState :=
  (resolve_backup_target renv root_id path).map (fun tid => ⟨[], tid⟩)

/-! ## Session setup (`initialize_oauth2_session`, lines 86-161) -/

/-- The observable states of the persisted token file at
`OAUTH_TOKEN_PATH`: absent (or unreadable — `open` raises `IOError`),
present but with contents `json.load` cannot parse (it raises
`ValueError`), or present with a parseable token (kept opaque). -/
inductive TokenFile where
  | missing
  | malformed
  | valid (token : String)
deriving Repr, DecidableEq

/-- The Python exception escaping the load step. -/
inductive PyExc where
  | valueError
deriving Repr, DecidableEq

/-- The token-load step (lines 100-106): `try: token = json.load(open(...))
except IOError: log.Notice(...)`.  The `except` clause catches only
`IOError`, so a missing file leaves `token = None` and proceeds, while
`json.load`'s `ValueError` on malformed contents escapes uncaught. -/
def load_token : TokenFile → Except PyExc (Option String)
  | TokenFile.missing => Except.ok none
  | TokenFile.malformed => Except.error PyExc.valueError
  | TokenFile.valid t => Except.ok (some t)

/-- The endpoint-discovery response body as read at line 157: the two URL
fields, each possibly absent. -/
structure EndpointsJson where
  metadataUrl : Option String
  contentUrl : Option String
deriving Repr, DecidableEq

/-- The fatal error of line 159. -/
inductive SetupErr where
  | fatalNoEndpoints
deriving Repr, DecidableEq

/-- Lines 157-161: `log.FatalError` when `'metadataUrl' not in urls or
'contentUrl' not in urls`; otherwise the pair is stored into
`self.metadata_url` and `self.content_url`, the bases every subsequent
metadata/content request URL is built from. -/
def set_endpoint_urls (urls : EndpointsJson) : Except SetupErr (String × String) :=
  match urls.metadataUrl, urls.contentUrl with
  | some m, some c => Except.ok (m, c)
  | _, _ => Except.error SetupErr.fatalNoEndpoints

/-! ## Trace observers and concrete witness data -/

/-- Whether an event is the multipart upload POST. -/
def isUploadEv : Ev → Bool
  | Ev.upload => true
  | _ => false

/-- The requests an operation issued before its first upload POST. -/
def beforeUpload : List Ev → List Ev
  | [] => []
  | e :: rest => if isUploadEv e then [] else e :: beforeUpload rest

/-- A two-page response sequence for the pagination witness: the first
page links to token `T1`, the second lacks the continuation token. -/
def pagesW : String → Page := fun t =>
  if t = "" then ⟨[⟨some "x", "1"⟩], some "T1", 3⟩
  else if t = "T1" then ⟨[⟨some "y", "2"⟩], none, 3⟩
  else ⟨[], none, 0⟩

/-- A concrete healthy environment for the witnesses: quota and all
per-node requests succeed, the upload response carries id `newid` and name
`vol1`, and the backup folder's listing holds one file `old ↦ oldid`. -/
def envA : Env :=
  { quotaStatus := 200
    available := 100
    sourceSize := 10
    uploadStatus := 201
    uploadId := some "newid"
    uploadName := some "vol1"
    listChildren := [("old", "oldid")]
    trashStatus := fun _ => 200
    nodeMetaStatus := fun _ => 200
    nodeSize := fun i => if i = "newid" then 10 else 0
    downloadStatus := fun _ => 200
    chunks := fun _ => [] }

/-- Environment `envA` with the upload POST answered 409 (duplicate-name conflict). -/
def envB : Env :=
  { envA with uploadStatus := 409 }

/-! ## Claim C1: the path resolver -/

theorem reStarRun_eq_takeWhile (p : Char → Bool) (l : List Char) :
    reStarRun p l = l.takeWhile p := by
  induction l with
  | nil => rfl
  | cons c cs ih => rw [reStarRun, List.takeWhile_cons, ih]

theorem mkFilter_eq_specFilter (c : String) : mkFilter c = specFilter c := by
  unfold mkFilter specFilter searchFilter
  rw [reStarRun_eq_takeWhile]
  cases hb : c.toList.any (fun a => !isFilterChar a) with
  | false =>
    have hall : ∀ x ∈ c.toList, isFilterChar x := by
      intro x hx
      have hx' := List.any_eq_false.mp hb x hx
      simpa using hx'
    have ht : c.toList.takeWhile isFilterChar = c.toList :=
      List.takeWhile_eq_self_iff.mpr hall
    rw [ht, show String.mk c.toList = c from rfl]
    simp [hb]
  | true =>
    have ht : c.toList.takeWhile isFilterChar ≠ c.toList := by
      intro heq
      obtain ⟨x, hx, hpx⟩ := List.any_eq_true.mp hb
      have hfx := List.takeWhile_eq_self_iff.mp heq x hx
      simp [hfx] at hpx
    have hcne : c ≠ String.mk (c.toList.takeWhile isFilterChar) := fun hc =>
      ht (congrArg String.toList hc).symm
    simp only [hb, if_true]
    exact if_pos hcne

theorem resolve_step_eq_spec (env : ResolveEnv) (p c : String) :
    resolve_step env p c = spec_resolve_step env p c := by
  unfold resolve_step spec_resolve_step
  rw [mkFilter_eq_specFilter]
  rcases h : (env.query p (specFilter c)).filter (fun f => f.name == some c) with
    _ | ⟨a, _ | ⟨b, l⟩⟩ <;> simp [h]

theorem resolve_components_eq_foldlM (env : ResolveEnv) (segs : List String) :
    ∀ parent, resolve_components env parent segs
      = List.foldlM (fun p seg => spec_resolve_step env p seg) parent segs := by
  induction segs with
  | nil => intro parent; rfl
  | cons c rest ih =>
    intro parent
    rw [resolve_components, resolve_step_eq_spec, List.foldlM_cons]
    cases h : spec_resolve_step env parent c with
    | error e => rfl
    | ok p => exact ih p

theorem filter_ne_empty_eq (l : List String) :
    l.filter (fun x => x != "") = l.filter (fun s => decide (s ≠ "")) := by
  apply List.filter_congr
  intro x _
  by_cases hx : x = "" <;> simp [hx]

/-- C1: for every logical path, the resolver processes each non-empty
slash-separated segment in order starting from the root folder node,
querying child folders with the longest `[A-Za-z0-9_-]` prefix of the
segment as filter (wildcard appended when the segment has other
characters), keeping candidates whose name equals the segment exactly,
failing fatally on two or more, descending into a single one, creating and
descending into a new folder on none; the node after the last segment is
the Backup Target.  Stated as: the source-side resolver coincides with the
resolver written from the specification's words, for every environment,
root node and path. -/
theorem c1_resolver_follows_spec (env : ResolveEnv) (root_id path : String) :
    resolve_backup_target env root_id path = spec_resolve env root_id path := by
  unfold resolve_backup_target spec_resolve
  rw [filter_ne_empty_eq]
  exact resolve_components_eq_foldlM env _ _

/-! ## Claim C2: the pagination reader -/

theorem read_all_pages_aux_chain (pages : String → Page) :
    ∀ (ts : List String) (t : String) (acc : List RNode) (reqs : List String)
      (fuel : Nat),
      chainOk pages (t :: ts) acc.length = true →
      ts.length + 1 ≤ fuel →
      read_all_pages_aux pages fuel t acc reqs
        = some (acc ++ chainData pages (t :: ts), reqs ++ (t :: ts)) := by
  intro ts
  induction ts with
  | nil =>
    intro t acc reqs fuel hchain hfuel
    cases fuel with
    | zero => omega
    | succ n =>
      simp only [chainOk] at hchain
      rw [read_all_pages_aux]
      cases hnt : (pages t).nextToken with
      | none => simp [chainData]
      | some nt =>
        by_cases hd : (pages t).data.length = 0
        · simp [hnt, hd, chainData]
        · have hc : (pages t).count ≤ acc.length + (pages t).data.length := by
            rw [stopsAt, hnt] at hchain
            simpa [hd] using hchain
          simp [hnt, hd, chainData, List.length_append]
          intro hlt
          exact absurd hc (by omega)
  | cons t' rest ih =>
    intro t acc reqs fuel hchain hfuel
    cases fuel with
    | zero => simp at hfuel
    | succ n =>
      simp only [chainOk, Bool.and_eq_true] at hchain
      obtain ⟨⟨hnstop, hbeq⟩, hrest⟩ := hchain
      have hstop : stopsAt (pages t) acc.length = false := by
        simpa using hnstop
      have hlink : (pages t).nextToken = some t' := eq_of_beq hbeq
      have hne' : (pages t).data.length ≠ 0 := by
        intro h0
        rw [stopsAt, h0] at hstop
        simp at hstop
      have hcount : ¬ (pages t).count ≤ acc.length + (pages t).data.length := by
        intro hle
        rw [stopsAt] at hstop
        simp [hle] at hstop
      rw [read_all_pages_aux]
      simp only [hlink]
      rw [if_neg hne']
      have hlt : ¬ (pages t).count ≤ (acc ++ (pages t).data).length := by
        rw [List.length_append]; exact hcount
      rw [if_neg hlt]
      rw [ih t' (acc ++ (pages t).data) (reqs ++ [t]) n
        (by rw [List.length_append]; exact hrest)
        (by simp only [List.length_cons] at hfuel; omega)]
      simp [chainData, List.append_assoc]

/-- C2: for every sequence of page responses whose token chain from the
empty start token eventually reaches a page that lacks the `nextToken`
field, or has an empty `data` array, or brings the accumulated node count
up to its reported `count`, `read_all_pages` terminates (returns `some`
once given at least as much fuel as the chain is long) and returns the
concatenation of the `data` arrays of the pages fetched up to and
including that page; the tokens it requested are exactly the chain: the
empty token first, then each page's `nextToken`. -/
theorem c2_read_all_pages_reads_chain (pages : String → Page) (ts : List String)
    (fuel : Nat) (hchain : chainOk pages ("" :: ts) 0 = true)
    (hfuel : ts.length + 1 ≤ fuel) :
    read_all_pages pages fuel = some (chainData pages ("" :: ts), "" :: ts) := by
  have h := read_all_pages_aux_chain pages ts "" [] [] fuel (by simpa using hchain) hfuel
  simpa [read_all_pages] using h

theorem c2_read_all_pages_witness :
    chainOk pagesW ("" :: ["T1"]) 0 = true ∧
    read_all_pages pagesW 2 = some (chainData pagesW ("" :: ["T1"]), "" :: ["T1"]) :=
  ⟨by decide, c2_read_all_pages_reads_chain pagesW ["T1"] 2 (by decide) (by decide)⟩

/-! ## Dictionary lemmas -/

theorem dictLookup_insert_self (k v : String) (d : Dict) :
    dictLookup k (dictInsert k v d) = some v := by
  induction d with
  | nil => simp [dictInsert, dictLookup]
  | cons p rest ih =>
    obtain ⟨k', v'⟩ := p
    by_cases h : k' = k
    · simp [dictInsert, dictLookup, h]
    · simp [dictInsert, dictLookup, h, ih]

theorem dictLookup_eq_none_of_not_mem_keys (k : String) (d : Dict)
    (h : k ∉ d.map Prod.fst) : dictLookup k d = none := by
  induction d with
  | nil => rfl
  | cons p rest ih =>
    obtain ⟨k', v'⟩ := p
    simp only [List.map_cons, List.mem_cons] at h
    push_neg at h
    rw [dictLookup, if_neg (fun he => h.1 he.symm)]
    exact ih h.2

theorem dictLookup_erase_self (k : String) (d : Dict)
    (h : (d.map Prod.fst).Nodup) : dictLookup k (dictErase k d) = none := by
  induction d with
  | nil => rfl
  | cons p rest ih =>
    obtain ⟨k', v'⟩ := p
    simp only [List.map_cons, List.nodup_cons] at h
    by_cases he : k' = k
    · rw [dictErase, if_pos he]
      exact dictLookup_eq_none_of_not_mem_keys k rest (he ▸ h.1)
    · rw [dictErase, if_neg he, dictLookup, if_neg he]
      exact ih h.2

/-! ## Claims C6 and C9: session setup -/

/-- C6 counterexample: at the concrete input of a token file that exists
but holds malformed (unparseable) contents, the load step raises — the
`except IOError` clause does not catch `json.load`'s `ValueError` — rather
than proceeding with token = none as the claim states. -/
theorem c6_malformed_token_file_raises :
    load_token TokenFile.malformed = Except.error PyExc.valueError := rfl

/-- C6 (amended): loading the Credential Token at session start tolerates
a missing (or unreadable) token file, proceeding with token = none, and
returns the parsed token of a well-formed file; but a file that exists
with malformed contents raises an uncaught ValueError, aborting the
session start. -/
theorem c6_token_load_missing_tolerated_malformed_raises :
    load_token TokenFile.missing = Except.ok none ∧
    load_token TokenFile.malformed = Except.error PyExc.valueError ∧
    ∀ t, load_token (TokenFile.valid t) = Except.ok (some t) :=
  ⟨rfl, rfl, fun _ => rfl⟩

/-- C9: session setup fails fatally exactly when the endpoint-discovery
response fails to provide the two expected URL fields (the metadata base
URL and the content base URL); when both are provided, the returned pair
is recorded as the session's `metadata_url`/`content_url` bases used by
every subsequent request. -/
theorem c9_endpoint_discovery_fatal_or_recorded (urls : EndpointsJson) :
    (set_endpoint_urls urls = Except.error SetupErr.fatalNoEndpoints ↔
      urls.metadataUrl = none ∨ urls.contentUrl = none) ∧
    ∀ m c, urls.metadataUrl = some m → urls.contentUrl = some c →
      set_endpoint_urls urls = Except.ok (m, c) := by
  obtain ⟨mu, cu⟩ := urls
  cases mu <;> cases cu <;> simp [set_endpoint_urls]

/-! ## Claim C8: the Backup Target id is set once and never reassigned -/

theorem get_file_id_target (env : Env) (st : BackendState) (name : String) :
    (get_file_id env st name).2.1.backup_target_id = st.backup_target_id := by
  unfold get_file_id list_op
  split <;> rfl

theorem delete_op_target (env : Env) (st : BackendState) (name : String) :
    (delete_op env st name).state.backup_target_id = st.backup_target_id := by
  unfold delete_op
  cases h : (get_file_id env st name).1 with
  | none => simpa [h] using get_file_id_target env st name
  | some fid =>
    by_cases htr : 400 ≤ env.trashStatus fid
    · simpa [h, if_pos htr] using get_file_id_target env st name
    · simpa [h, if_neg htr] using get_file_id_target env st name

theorem proactive_delete_target (env : Env) (st : BackendState) (name : String) :
    (proactive_delete env st name).state.backup_target_id = st.backup_target_id := by
  unfold proactive_delete
  split
  · exact delete_op_target env st name
  · rfl

theorem put_upload_target (env : Env) (st1 : BackendState) (name : String)
    (ev : List Ev) :
    (put_upload env st1 name ev).state.backup_target_id = st1.backup_target_id := by
  unfold put_upload
  by_cases h409 : env.uploadStatus = 409
  · rw [if_pos h409]
    cases h : (delete_op env st1 name).result with
    | error e => simpa [h] using delete_op_target env st1 name
    | ok a => simpa [h] using delete_op_target env st1 name
  · rw [if_neg h409]
    by_cases h400 : 400 ≤ env.uploadStatus
    · rw [if_pos h400]
    · rw [if_neg h400]
      cases env.uploadId with
      | none => rfl
      | some new_id =>
        cases env.uploadName with
        | none => rfl
        | some nm => rfl

theorem put_op_target (env : Env) (st : BackendState) (name : String) :
    (put_op env st name).state.backup_target_id = st.backup_target_id := by
  unfold put_op
  by_cases hq : 400 ≤ env.quotaStatus
  · rw [if_pos hq]
  · rw [if_neg hq]
    by_cases hav : env.available < env.sourceSize
    · rw [if_pos hav]
    · rw [if_neg hav]
      cases h : (proactive_delete env st name).result with
      | error e => simpa [h] using proactive_delete_target env st name
      | ok a =>
        simp only [h]
        rw [put_upload_target]
        exact proactive_delete_target env st name

theorem query_op_target (env : Env) (st : BackendState) (name : String) :
    (query_op env st name).state.backup_target_id = st.backup_target_id := by
  unfold query_op
  cases h : (get_file_id env st name).1 with
  | none => simpa [h] using get_file_id_target env st name
  | some fid =>
    by_cases hms : 400 ≤ env.nodeMetaStatus fid
    · simpa [h, if_pos hms] using get_file_id_target env st name
    · simpa [h, if_neg hms] using get_file_id_target env st name

theorem get_op_target (env : Env) (st : BackendState) (name : String) :
    (get_op env st name).state.backup_target_id = st.backup_target_id := by
  unfold get_op
  cases h : (get_file_id env st name).1 with
  | none => simpa [h] using get_file_id_target env st name
  | some fid =>
    by_cases hds : 400 ≤ env.downloadStatus fid
    · simpa [h, if_pos hds] using get_file_id_target env st name
    · simpa [h, if_neg hds] using get_file_id_target env st name

/-- C8: the Backup Target folder id is resolved once, at construction —
`mk_backend_state` stores exactly the resolver's result — and every file
operation (put, get, query, delete, list) leaves `backup_target_id`
untouched, for every environment (so in particular under arbitrary
external mutation of the remote tree): it is read but never reassigned and
never re-resolved mid-session. -/
theorem c8_backup_target_resolved_once_never_reassigned :
    ∀ (env : Env) (st : BackendState) (name : String) (renv : ResolveEnv)
      (root_id path : String),
      (put_op env st name).state.backup_target_id = st.backup_target_id ∧
      (get_op env st name).state.backup_target_id = st.backup_target_id ∧
      (query_op env st name).state.backup_target_id = st.backup_target_id ∧
      (delete_op env st name).state.backup_target_id = st.backup_target_id ∧
      (list_op env st).2.1.backup_target_id = st.backup_target_id ∧
      (mk_backend_state renv root_id path).map (fun s => s.backup_target_id)
        = resolve_backup_target renv root_id path := by
  intro env st name renv root_id path
  refine ⟨put_op_target env st name, get_op_target env st name,
    query_op_target env st name, delete_op_target env st name, rfl, ?_⟩
  cases h : resolve_backup_target renv root_id path <;>
    simp [mk_backend_state, h, Except.map]

/-! ## Claim C10: `_get` truncates the destination before the existence check -/

/-- C10: when `remote_filename` resolves to no node id (a Node Index miss
followed by a fresh listing that does not contain it), `_get` raises the
non-retryable not-found error, but only after `local_path.open('wb')` has
already created or truncated the destination: the destination ends as an
(empty) file rather than untouched, and the open event precedes the
existence check's listing. -/
theorem c10_get_opens_destination_before_existence_check (env : Env)
    (st : BackendState) (name : String)
    (h1 : dictMem name st.names_to_ids = false)
    (h2 : dictLookup name (dictOfPairs env.listChildren) = none) :
    (get_op env st name).result = Except.error (BErr.notFoundGet name) ∧
    (get_op env st name).dest = some [] ∧
    (get_op env st name).events = [Ev.openDest, Ev.listing] := by
  unfold get_op get_file_id list_op
  rw [if_neg (by simp [h1])]
  simp [h2]

/-! ## Claim C3: a successful put updates the Node Index before returning -/

theorem put_upload_ok_state (env : Env) (st1 : BackendState) (name : String)
    (ev : List Ev) (h : (put_upload env st1 name ev).result = Except.ok ()) :
    ∃ new_id nm, env.uploadId = some new_id ∧ env.uploadName = some nm ∧
      (put_upload env st1 name ev).state
        = { st1 with names_to_ids := dictInsert nm new_id st1.names_to_ids } := by
  unfold put_upload at h ⊢
  by_cases h409 : env.uploadStatus = 409
  · rw [if_pos h409] at h
    cases hr : (delete_op env st1 name).result with
    | error e => simp [hr] at h
    | ok a => simp [hr] at h
  · rw [if_neg h409] at h ⊢
    by_cases h400 : 400 ≤ env.uploadStatus
    · simp [if_pos h400] at h
    · rw [if_neg h400] at h ⊢
      cases hid : env.uploadId with
      | none => simp [hid] at h
      | some new_id =>
        cases hnm : env.uploadName with
        | none => simp [hid, hnm] at h
        | some nm =>
          exact ⟨new_id, nm, rfl, rfl, rfl⟩

/-- C3: for every successful `put` (one that returns without raising,
hence with an upload response that carried the new node's id — and, the
provider echoing back the uploaded file's name, that name), the Node Index
maps the uploaded name to the id from the upload response already when
`put` returns, so a `query` of the same name issued immediately after
answers from the index with the uploaded file's reported size, without
issuing any fresh listing (and hence without depending on the file being
visible in one). -/
theorem c3_put_updates_index_before_return (env : Env) (st : BackendState)
    (name new_id : String)
    (hid : env.uploadId = some new_id)
    (hname : env.uploadName = some name)
    (hok : (put_op env st name).result = Except.ok ())
    (hms : env.nodeMetaStatus new_id < 400)
    (hsz : env.nodeSize new_id = env.sourceSize) :
    dictLookup name (put_op env st name).state.names_to_ids = some new_id ∧
    (query_op env (put_op env st name).state name).result
      = Except.ok env.sourceSize ∧
    Ev.listing ∉ (query_op env (put_op env st name).state name).events := by
  have hstate : dictLookup name (put_op env st name).state.names_to_ids
      = some new_id := by
    unfold put_op at hok ⊢
    by_cases hq : 400 ≤ env.quotaStatus
    · simp [if_pos hq] at hok
    · rw [if_neg hq] at hok ⊢
      by_cases hav : env.available < env.sourceSize
      · simp [if_pos hav] at hok
      · rw [if_neg hav] at hok ⊢
        cases hr : (proactive_delete env st name).result with
        | error e => simp [hr] at hok
        | ok a =>
          simp only [hr] at hok ⊢
          obtain ⟨n2, m2, hid2, hnm2, hst⟩ := put_upload_ok_state _ _ _ _ hok
          rw [hid] at hid2
          rw [hname] at hnm2
          injection hid2 with he1
          injection hnm2 with he2
          rw [hst, ← he1, ← he2]
          exact dictLookup_insert_self name new_id _
  have hmem : dictMem name (put_op env st name).state.names_to_ids = true := by
    simp [dictMem, hstate]
  refine ⟨hstate, ?_, ?_⟩
  · unfold query_op get_file_id
    rw [if_pos hmem]
    simp only [hstate]
    rw [if_neg (by omega : ¬ 400 ≤ env.nodeMetaStatus new_id)]
    simp [hsz]
  · unfold query_op get_file_id
    rw [if_pos hmem]
    simp only [hstate]
    rw [if_neg (by omega : ¬ 400 ≤ env.nodeMetaStatus new_id)]
    simp

theorem c3_put_then_query_witness :
    (put_op envA ⟨[], "tid"⟩ "vol1").result = Except.ok () ∧
    dictLookup "vol1" (put_op envA ⟨[], "tid"⟩ "vol1").state.names_to_ids
      = some "newid" ∧
    (query_op envA (put_op envA ⟨[], "tid"⟩ "vol1").state "vol1").result
      = Except.ok envA.sourceSize :=
  ⟨rfl,
   (c3_put_updates_index_before_return envA ⟨[], "tid"⟩ "vol1" "newid" rfl rfl rfl
      (by decide) rfl).1,
   (c3_put_updates_index_before_return envA ⟨[], "tid"⟩ "vol1" "newid" rfl rfl rfl
      (by decide) rfl).2.1⟩

/-! ## Claim C4: upload 409 deletes the conflicting node, then raises retryable -/

theorem proactive_delete_ok_not_mem (env : Env) (st : BackendState) (name : String)
    (hwf : (st.names_to_ids.map Prod.fst).Nodup)
    (hpro : (proactive_delete env st name).result = Except.ok ()) :
    dictMem name (proactive_delete env st name).state.names_to_ids = false := by
  unfold proactive_delete at hpro ⊢
  by_cases hm : dictMem name st.names_to_ids = true
  · rw [if_pos hm] at hpro ⊢
    unfold delete_op get_file_id at hpro ⊢
    rw [if_pos hm] at hpro ⊢
    cases hl : dictLookup name st.names_to_ids with
    | none => simp [dictMem, hl] at hm
    | some fid =>
      simp only [hl] at hpro ⊢
      by_cases htr : 400 ≤ env.trashStatus fid
      · simp [if_pos htr] at hpro
      · rw [if_neg htr] at hpro ⊢
        simp [dictMem, dictLookup_erase_self name st.names_to_ids hwf]
  · rw [if_neg hm] at hpro ⊢
    simpa using hm

/-- C4: for every `put` whose upload POST is answered with status 409
(duplicate-name conflict) — with quota and the earlier proactive-delete
step succeeding, the conflicting node present in the fresh listing under
`remote_name` with id `cid`, and the trash move accepted — the adapter
deletes that conflicting remote node (the trash request on `cid`, after
the upload and its lookup listing) and then raises the retryable
conflict error telling the caller to retry the upload. -/
theorem c4_upload_conflict_deletes_then_raises_retryable (env : Env)
    (st : BackendState) (name cid : String)
    (hq : env.quotaStatus < 400)
    (hfit : env.sourceSize ≤ env.available)
    (h409 : env.uploadStatus = 409)
    (hwf : (st.names_to_ids.map Prod.fst).Nodup)
    (hpro : (proactive_delete env st name).result = Except.ok ())
    (hlist : dictLookup name (dictOfPairs env.listChildren) = some cid)
    (htrash : env.trashStatus cid < 400) :
    (put_op env st name).result = Except.error (BErr.uploadConflict name) ∧
    (put_op env st name).events
      = [Ev.quota] ++ (proactive_delete env st name).events
        ++ [Ev.upload, Ev.listing, Ev.trash cid] ∧
    retryable (BErr.uploadConflict name) = true := by
  have hnm := proactive_delete_ok_not_mem env st name hwf hpro
  have hdel : delete_op env (proactive_delete env st name).state name
      = ⟨Except.ok (),
          { (proactive_delete env st name).state with
              names_to_ids := dictErase name (dictOfPairs env.listChildren) },
          [Ev.listing, Ev.trash cid]⟩ := by
    unfold delete_op get_file_id list_op
    rw [if_neg (by simp [hnm])]
    simp only [hlist]
    rw [if_neg (by omega : ¬ 400 ≤ env.trashStatus cid)]
    simp
  have hput : put_op env st name
      = put_upload env (proactive_delete env st name).state name
          ([Ev.quota] ++ (proactive_delete env st name).events) := by
    unfold put_op
    rw [if_neg (by omega : ¬ 400 ≤ env.quotaStatus)]
    rw [if_neg (by omega : ¬ env.available < env.sourceSize)]
    cases hr : (proactive_delete env st name).result with
    | error e => rw [hr] at hpro; cases hpro
    | ok a => simp [hr]
  rw [hput]
  unfold put_upload
  rw [if_pos h409, hdel]
  simp [retryable]

theorem c4_conflict_witness :
    (put_op envB ⟨[], "tid"⟩ "old").result
      = Except.error (BErr.uploadConflict "old") ∧
    (put_op envB ⟨[], "tid"⟩ "old").events
      = [Ev.quota] ++ (proactive_delete envB ⟨[], "tid"⟩ "old").events
        ++ [Ev.upload, Ev.listing, Ev.trash "oldid"] :=
  ⟨(c4_upload_conflict_deletes_then_raises_retryable envB ⟨[], "tid"⟩ "old" "oldid"
      (by decide) (by decide) rfl (by simp) rfl rfl (by decide)).1,
   (c4_upload_conflict_deletes_then_raises_retryable envB ⟨[], "tid"⟩ "old" "oldid"
      (by decide) (by decide) rfl (by simp) rfl rfl (by decide)).2.1⟩

/-! ## Claim C5: a cached name is trash-moved exactly once, before the upload -/

theorem put_upload_events_shape (env : Env) (st1 : BackendState) (name : String)
    (ev : List Ev) :
    ∃ rest, (put_upload env st1 name ev).events = ev ++ [Ev.upload] ++ rest := by
  unfold put_upload
  by_cases h409 : env.uploadStatus = 409
  · rw [if_pos h409]
    cases hr : (delete_op env st1 name).result with
    | error e => exact ⟨(delete_op env st1 name).events, by simp [hr]⟩
    | ok a => exact ⟨(delete_op env st1 name).events, by simp [hr]⟩
  · rw [if_neg h409]
    by_cases h400 : 400 ≤ env.uploadStatus
    · rw [if_pos h400]; exact ⟨[], by simp⟩
    · rw [if_neg h400]
      cases env.uploadId with
      | none => exact ⟨[], by simp⟩
      | some new_id =>
        cases env.uploadName with
        | none => exact ⟨[], by simp⟩
        | some nm => exact ⟨[], by simp⟩

/-- C5: for every `put` of a name that is a key of the Node Index at call
time (with quota passing and the trash move accepted), the requests issued
before the upload POST are exactly the quota GET and one single trash-move
call, on the old node's id — the delete happens exactly once and before
the new upload request is issued. -/
theorem c5_cached_name_single_delete_before_upload (env : Env) (st : BackendState)
    (name oldId : String)
    (hq : env.quotaStatus < 400)
    (hfit : env.sourceSize ≤ env.available)
    (hin : dictLookup name st.names_to_ids = some oldId)
    (htrash : env.trashStatus oldId < 400) :
    beforeUpload (put_op env st name).events = [Ev.quota, Ev.trash oldId] ∧
    Ev.upload ∈ (put_op env st name).events := by
  have hmem : dictMem name st.names_to_ids = true := by simp [dictMem, hin]
  have hdel : delete_op env st name
      = ⟨Except.ok (),
          { st with names_to_ids := dictErase name st.names_to_ids },
          [Ev.trash oldId]⟩ := by
    unfold delete_op get_file_id
    rw [if_pos hmem]
    simp only [hin]
    rw [if_neg (by omega : ¬ 400 ≤ env.trashStatus oldId)]
    simp
  have hput : put_op env st name
      = put_upload env { st with names_to_ids := dictErase name st.names_to_ids }
          name [Ev.quota, Ev.trash oldId] := by
    unfold put_op
    rw [if_neg (by omega : ¬ 400 ≤ env.quotaStatus)]
    rw [if_neg (by omega : ¬ env.available < env.sourceSize)]
    unfold proactive_delete
    rw [if_pos hmem, hdel]
    rfl
  obtain ⟨rest, hev⟩ := put_upload_events_shape env
    { st with names_to_ids := dictErase name st.names_to_ids } name
    [Ev.quota, Ev.trash oldId]
  rw [hput, hev]
  constructor
  · simp [beforeUpload, isUploadEv]
  · simp

theorem c5_cached_name_witness :
    beforeUpload (put_op envA ⟨[("vol1", "oldid")], "tid"⟩ "vol1").events
      = [Ev.quota, Ev.trash "oldid"] ∧
    Ev.upload ∈ (put_op envA ⟨[("vol1", "oldid")], "tid"⟩ "vol1").events :=
  c5_cached_name_single_delete_before_upload envA ⟨[("vol1", "oldid")], "tid"⟩
    "vol1" "oldid" (by decide) (by decide) rfl (by decide)

/-! ## Claim C7: delete of an absent name -/

/-- C7 counterexample: deleting the absent name `b` while the Node Index
caches `a ↦ 1` raises the not-found error, but does not leave the Node
Index unchanged — the lookup miss re-listed the Backup Target and replaced
the index wholesale (here by `old ↦ oldid`). -/
theorem c7_delete_absent_changes_index_counterexample :
    (delete_op envA ⟨[("a", "1")], "tid"⟩ "b").result
      = Except.error (BErr.notFoundDelete "b") ∧
    (delete_op envA ⟨[("a", "1")], "tid"⟩ "b").state.names_to_ids ≠ [("a", "1")] := by
  constructor
  · rfl
  · decide

/-- C7 (amended): a `delete` of a name with no corresponding node id (not
in the Node Index, and not present in the fresh listing of the Backup
Target's FILE children that the lookup miss triggers) raises the
non-retryable not-found error and removes nothing itself; but the Node
Index does not stay unchanged — the triggered listing has replaced it
wholesale with the listing's name→id mapping. -/
theorem c7_delete_absent_raises_and_index_is_fresh_listing (env : Env)
    (st : BackendState) (name : String)
    (h1 : dictMem name st.names_to_ids = false)
    (h2 : dictLookup name (dictOfPairs env.listChildren) = none) :
    (delete_op env st name).result = Except.error (BErr.notFoundDelete name) ∧
    (delete_op env st name).state.names_to_ids = dictOfPairs env.listChildren ∧
    (delete_op env st name).events = [Ev.listing] ∧
    retryable (BErr.notFoundDelete name) = false := by
  unfold delete_op get_file_id list_op
  rw [if_neg (by simp [h1])]
  simp [h2, retryable]

theorem c7_delete_absent_witness :
    (delete_op envA ⟨[], "tid"⟩ "b").result
      = Except.error (BErr.notFoundDelete "b") ∧
    (delete_op envA ⟨[], "tid"⟩ "b").state.names_to_ids
      = dictOfPairs envA.listChildren :=
  have h := c7_delete_absent_raises_and_index_is_fresh_listing envA ⟨[], "tid"⟩
    "b" rfl rfl
  ⟨h.1, h.2.1⟩

theorem c10_get_not_found_witness :
    (get_op envA ⟨[], "tid"⟩ "nope").result
      = Except.error (BErr.notFoundGet "nope") ∧
    (get_op envA ⟨[], "tid"⟩ "nope").dest = some [] ∧
    (get_op envA ⟨[], "tid"⟩ "nope").events = [Ev.openDest, Ev.listing] :=
  c10_get_opens_destination_before_existence_check envA ⟨[], "tid"⟩ "nope" rfl rfl

end AmazonDrive
